import Mathlib

/-!
Verification development for the brawlhalla.py client library.

Part 1: the rate-limiting admission controller (`RateBucket.py`).

The Python class `RateBucket` keeps two token counters (a per-second burst
counter and a per-15-minutes sustained counter), a capacity for each, and a
fractional-second carry buffer `__elapsed_time`.  Wall-clock time enters the
code only through `time.time()` in `__add_requests` as the difference
`current_time - self.__last_check_time`; we therefore embed `__add_requests`
as a function of that difference `delta` (which a backwards clock jump makes
negative) and drop the `__last_check_time` field itself.  Python floats are
modelled as rationals.
-/

namespace Brawlhalla

/-- State of `RateBucket`: the two configured capacities
(`requests_per_15_minutes`, `requests_per_second`), the two current counters
(`__allowed_requests_per_15_minutes`, `__allowed_requests_per_second`), and
the fractional-second carry buffer (`__elapsed_time`). -/
structure RateBucket where
  requests_per_15_minutes : ℚ
  requests_per_second : ℚ
  allowed_requests_per_15_minutes : ℚ
  allowed_requests_per_second : ℚ
  elapsed_time : ℚ
  deriving DecidableEq, Repr

namespace RateBucket

/-- Constructor `RateBucket.__init__`: both counters start at full capacity and the carry
buffer at zero. -/
def init (requests_per_15_minutes requests_per_second : ℚ) : RateBucket :=
  { requests_per_15_minutes := requests_per_15_minutes
    requests_per_second := requests_per_second
    allowed_requests_per_15_minutes := requests_per_15_minutes
    allowed_requests_per_second := requests_per_second
    elapsed_time := 0 }

/-- Method `RateBucket.__add_requests`, as a function of the measured wall-clock
difference `delta = current_time - self.__last_check_time`.  The carry buffer
accumulates `delta`; only when it strictly exceeds 1 is its integer part
(`int(x)` truncates, which on a value `> 1` agrees with the floor) converted
into token credits, each counter being clamped to its capacity. -/
def add_requests (b : RateBucket) (delta : ℚ) : RateBucket :=
  let e := b.elapsed_time + delta
  if 1 < e then
    let elapsed_seconds : ℤ := ⌊e⌋
    let a15 := b.allowed_requests_per_15_minutes
      + (1 / 900) * (elapsed_seconds : ℚ) * b.requests_per_15_minutes
    let aSec := b.allowed_requests_per_second
      + (elapsed_seconds : ℚ) * b.requests_per_second
    { b with
      allowed_requests_per_15_minutes :=
        if b.requests_per_15_minutes < a15 then b.requests_per_15_minutes else a15
      allowed_requests_per_second :=
        if b.requests_per_second < aSec then b.requests_per_second else aSec
      elapsed_time := e - (elapsed_seconds : ℚ) }
  else
    { b with elapsed_time := e }

/-- Method `RateBucket.can_request`: refill, then report whether both counters are
`≥ 1`.  The returned state is the post-refill state (the Python method mutates
`self`). -/
def can_request (b : RateBucket) (delta : ℚ) : Bool × RateBucket :=
  let b' := add_requests b delta
  (if 1 ≤ b'.allowed_requests_per_15_minutes ∧ 1 ≤ b'.allowed_requests_per_second
    then true else false, b')

/-- Result of `RateBucket.get_next_request`: either a returned wait duration
or the trailing `raise Exception("Request should be allowed.")`. -/
inductive NextReq where
  | wait (seconds : ℕ)
  | raiseUnreachable
  deriving DecidableEq, Repr

/-- Method `RateBucket.get_next_request`: 0 if a request can be made now, else 5 when
the 15-minute counter is short, else 1 when the per-second counter is short,
else the (supposedly unreachable) `raise`. -/
def get_next_request (b : RateBucket) (delta : ℚ) : NextReq × RateBucket :=
  let p := can_request b delta
  if p.1 then (.wait 0, p.2)
  else if p.2.allowed_requests_per_15_minutes < 1 then (.wait 5, p.2)
  else if p.2.allowed_requests_per_second < 1 then (.wait 1, p.2)
  else (.raiseUnreachable, p.2)

/-- Method `RateBucket.do_request`: unconditionally decrement both counters by one.
The Python method performs no precondition check. -/
def do_request (b : RateBucket) : RateBucket :=
  { b with
    allowed_requests_per_15_minutes := b.allowed_requests_per_15_minutes - 1
    allowed_requests_per_second := b.allowed_requests_per_second - 1 }

/-- One admission-controller operation, each refilling operation carrying the
wall-clock difference observed inside it. -/
inductive Op where
  | refill (delta : ℚ)
  | canReq (delta : ℚ)
  | nextReq (delta : ℚ)
  | commit
  deriving Repr

/-- State effect of one operation, exactly as the Python methods mutate the
bucket (`do_request` decrements with no guard). -/
def step (b : RateBucket) : Op → RateBucket
  | .refill d => add_requests b d
  | .canReq d => (can_request b d).2
  | .nextReq d => (get_next_request b d).2
  | .commit => do_request b

/-- Run a sequence of operations from a state. -/
def run (b : RateBucket) (ops : List Op) : RateBucket :=
  ops.foldl step b

/-- State effect of one operation under the documented calling protocol, in
which `commit` is only performed after a successful admission check (both
counters `≥ 1`), as the admission loop of the client guarantees. -/
def stepGuarded (b : RateBucket) : Op → RateBucket
  | .commit =>
    if 1 ≤ b.allowed_requests_per_15_minutes ∧ 1 ≤ b.allowed_requests_per_second
      then do_request b else b
  | op => step b op

/-- Run a sequence of operations under the guarded-commit protocol. -/
def runGuarded (b : RateBucket) (ops : List Op) : RateBucket :=
  ops.foldl stepGuarded b

/-- The state invariant claimed by the specification: both counters lie in
`[0, capacity]`. -/
def Inv (b : RateBucket) : Prop :=
  0 ≤ b.allowed_requests_per_15_minutes
    ∧ b.allowed_requests_per_15_minutes ≤ b.requests_per_15_minutes
    ∧ 0 ≤ b.allowed_requests_per_second
    ∧ b.allowed_requests_per_second ≤ b.requests_per_second

instance (b : RateBucket) : Decidable (Inv b) := by
  unfold Inv; infer_instance

/-- Modelled from the spec: the refill rule as the specification words it,
with the credit conversion firing as soon as the carry buffer reaches `≥ 1`
whole second (the source code instead requires it to strictly exceed 1). -/
def add_requests_spec (b : RateBucket) (delta : ℚ) : RateBucket :=
  let e := b.elapsed_time + delta
  if 1 ≤ e then
    let elapsed_seconds : ℤ := ⌊e⌋
    let a15 := b.allowed_requests_per_15_minutes
      + (1 / 900) * (elapsed_seconds : ℚ) * b.requests_per_15_minutes
    let aSec := b.allowed_requests_per_second
      + (elapsed_seconds : ℚ) * b.requests_per_second
    { b with
      allowed_requests_per_15_minutes :=
        if b.requests_per_15_minutes < a15 then b.requests_per_15_minutes else a15
      allowed_requests_per_second :=
        if b.requests_per_second < aSec then b.requests_per_second else aSec
      elapsed_time := e - (elapsed_seconds : ℚ) }
  else
    { b with elapsed_time := e }

end RateBucket

/-!
Part 2: response normalization (`API.py`, class `Response`).

JSON values (as produced by `response.json()`) are a standard inductive.
`Response.__init__` wraps a JSON list as an object with a `responses` list of
recursively built `Response`s, and a JSON dict as an object exposing the
fields of the dict, after (a) re-encoding the `name` field — or, only when `name`
is absent, the `teamname` field — through
`.encode("raw_unicode_escape").decode("utf-8")`, and (b) replacing every
list-valued field by a list of recursively built `Response`s.  Any other
payload raises `NotImplementedError`.  The escape-decoding string transform
itself is kept abstract as a parameter `dec : String → String`; what the
claims concern is which fields it is applied to.
-/

/-- JSON values as returned by `response.json()`. -/
inductive JSON where
  | null
  | bool (b : Bool)
  | num (n : ℤ)
  | str (s : String)
  | arr (elems : List JSON)
  | obj (fields : List (String × JSON))

/-- Python truthiness of a parsed JSON value (`if data:`). -/
def JSON.truthy : JSON → Bool
  | .null => false
  | .bool b => b
  | .num n => n != 0
  | .str s => s != ""
  | .arr xs => !xs.isEmpty
  | .obj fs => !fs.isEmpty

/-- The exceptions the embedded code can raise. -/
inductive PyErr where
  | brawlhalla (status : ℕ) (reason : String) (detail : JSON)
  | keyError (key : String)
  | typeError
  | attributeError
  | notImplementedError
  | jsonDecodeError
  | indexError

/-- Dictionary lookup on the (order-preserving, unique-key) field list of a
JSON object. -/
def lookupField (k : String) : List (String × JSON) → Option JSON
  | [] => none
  | (k1, v) :: rest => if k1 = k then some v else lookupField k rest

/-- The `name`/`teamname` fix-up decision of `Response.__init__`: if `name`
is a key, decode its (string) value; `elif teamname` is a key, decode its
value; decoding a non-string raises `AttributeError` (no `.encode`).  Returns
the key to be replaced together with its decoded value. -/
def checkFix (dec : String → String) (fs : List (String × JSON)) :
    Except PyErr (Option (String × String)) :=
  match lookupField "name" fs with
  | some (.str s) => .ok (some ("name", dec s))
  | some _ => .error .attributeError
  | none =>
    match lookupField "teamname" fs with
    | some (.str s) => .ok (some ("teamname", dec s))
    | some _ => .error .attributeError
    | none => .ok none

mutual
/-- A field value of a normalized `Response`: either the raw JSON value, or —
when the original value was a JSON list — a list of normalized `Response`s. -/
inductive RVal where
  | raw (v : JSON)
  | respList (rs : List Resp)

/-- A normalized `Response` object: the dict branch exposes the (fixed-up)
fields, the list branch holds the `responses` attribute. -/
inductive Resp where
  | objR (fields : List (String × RVal))
  | listWrap (responses : List Resp)
end

mutual

/-- Constructor `Response.__init__`, as a function from the JSON payload to the built
object (or the exception raised).  `dec` is the escape-decoding transform
applied to the `name`/`teamname` field. -/
def respOfJSON (dec : String → String) : JSON → Except PyErr Resp
  | .arr xs => (respListOfJSON dec xs).map Resp.listWrap
  | .obj fs =>
    match checkFix dec fs with
    | .error e => .error e
    | .ok fixInfo => (convFields dec fixInfo fs).map Resp.objR
  | _ => .error .notImplementedError

/-- The comprehension building `[Response(x) for x in data]`: normalize every element, in order,
propagating the first exception. -/
def respListOfJSON (dec : String → String) : List JSON → Except PyErr (List Resp)
  | [] => .ok []
  | x :: xs =>
    match respOfJSON dec x with
    | .error e => .error e
    | .ok r =>
      match respListOfJSON dec xs with
      | .error e => .error e
      | .ok rs => .ok (r :: rs)

/-- The field-processing loop of the dict branch: the first occurrence of the
fix-up key receives its decoded value, every list-valued field becomes a list
of normalized `Response`s, and every other field is kept raw. -/
def convFields (dec : String → String) :
    Option (String × String) → List (String × JSON) → Except PyErr (List (String × RVal))
  | _, [] => .ok []
  | some (fk, fv), (k, v) :: rest =>
    if k = fk then
      (convFields dec none rest).map (fun t => (k, RVal.raw (JSON.str fv)) :: t)
    else
      match v with
      | .arr ys =>
        match respListOfJSON dec ys with
        | .error e => .error e
        | .ok rs => (convFields dec (some (fk, fv)) rest).map (fun t => (k, RVal.respList rs) :: t)
      | v1 => (convFields dec (some (fk, fv)) rest).map (fun t => (k, RVal.raw v1) :: t)
  | none, (k, v) :: rest =>
    match v with
    | .arr ys =>
      match respListOfJSON dec ys with
      | .error e => .error e
      | .ok rs => (convFields dec none rest).map (fun t => (k, RVal.respList rs) :: t)
    | v1 => (convFields dec none rest).map (fun t => (k, RVal.raw v1) :: t)

end

/-- Field lookup on a normalized object (`Response.__getitem__` /attribute
access on the dict branch). -/
def lookupRVal (k : String) : List (String × RVal) → Option RVal
  | [] => none
  | (k1, v) :: rest => if k1 = k then some v else lookupRVal k rest

/-- Python subscripting `data[k]` on a parsed JSON value: dict lookup
(`KeyError` when the key is missing), `TypeError` on any non-dict value. -/
def subscript (j : JSON) (k : String) : Except PyErr JSON :=
  match j with
  | .obj fs =>
    match lookupField k fs with
    | some v => .ok v
    | none => .error (.keyError k)
  | _ => .error .typeError

/-!
Part 3: the request pipeline (`BrawlhallaClient.py`, `__send_request` and the
URL helpers).

The network is embedded as the list of results of the successive HTTP
attempts the call will make (the recursive retry on 429 consumes the next
element).  the admission-control prelude of `__send_request`
(`while not self.bucket.can_request(): await asyncio.sleep(...)` followed by
`self.bucket.do_request()`) only mutates the rate bucket and sleeps; it does
not influence the returned value, and is modelled separately by the
`RateBucket` operations of Part 1.  The function below models the code from
`endpoint = self.__resolve_endpoint(...)` onward, together with the
`try`/`except` policy handling.  Query-parameter values are modelled after
their `str()` conversion, with the empty string as the falsy case filtered
out by `if kvargs[x]`.
-/

/-- Configuration record `ClientOptions` with its default values. -/
structure ClientOptions where
  requests_per_15_minutes : ℕ := 180
  requests_per_second : ℕ := 10
  use_internal_ratelimiter : Bool := true
  max_timeout_time : Option ℕ := none
  propagate_exceptions : Bool := true
  swallow_429 : Bool := true
  retry_on_429 : Bool := false
  retry_delay : ℕ := 60

/-- Method `BrawlhallaClient.__resolve_query_params`: append the credential, drop
falsy values, and join as `?k=v&k=v...`. -/
def resolve_query_params (api_key : String) (kvargs : List (String × Option String)) : String :=
  let withKey := kvargs ++ [("api_key", some api_key)]
  let present := withKey.filterMap fun p =>
    p.2.bind fun v => if v = "" then none else some (p.1, v)
  present.foldl (fun acc kv =>
    if acc = "" then acc ++ "?" ++ kv.1 ++ "=" ++ kv.2
    else acc ++ "&" ++ kv.1 ++ "=" ++ kv.2) ""

/-- Python `str.format` with positional `\x7b\x7d` placeholders: each
placeholder consumes the next argument (missing arguments raise `IndexError`,
modelled as `none`; stray single braces raise `ValueError`, also `none`);
surplus arguments are ignored. -/
def pyFormatAux : List Char → List String → Option (List Char)
  | [], _ => some []
  | '\x7b' :: '\x7d' :: rest, a :: as => (pyFormatAux rest as).map (fun r => a.data ++ r)
  | '\x7b' :: '\x7d' :: _, [] => none
  | '\x7b' :: _, _ => none
  | '\x7d' :: _, _ => none
  | c :: rest, as => (pyFormatAux rest as).map (fun r => c :: r)

/-- The call `endpoint.format(*args)`. -/
def pyFormat (s : String) (args : List String) : Option String :=
  (pyFormatAux s.data args).map List.asString

/-- Method `BrawlhallaClient.__resolve_endpoint`:
`https://api.brawlhalla.com/` + formatted template + `/` + query string. -/
def resolve_endpoint (api_key endpoint : String) (args : List String)
    (kvargs : List (String × Option String)) : Option String :=
  (pyFormat endpoint args).map fun p =>
    "https://api.brawlhalla.com/" ++ p ++ "/" ++ resolve_query_params api_key kvargs

/-- Result of one HTTP attempt: either the bounded wait expired, or a
response arrived with a status, a reason phrase, and a body (`none` when
`response.json()` raises because the body is unparseable). -/
inductive HttpAttempt where
  | timeout
  | response (status : ℕ) (reason : String) (body : Option JSON)

/-- What one `__send_request` call delivers to its caller: a returned value
(`None` or a `Response`) or a raised exception. -/
inductive SendResult where
  | ret (r : Option Resp)
  | raised (e : PyErr)

/-- The `except Exception as e:` handler: re-raise when
`propagate_exceptions` is set, else return `None`. -/
def applyPolicy (opts : ClientOptions) (e : PyErr) : SendResult :=
  if opts.propagate_exceptions then .raised e else .ret none

/-- Method `BrawlhallaClient.__send_request` from the URL resolution onward, driven
by the list of HTTP attempt results.  Returns the delivered result together
with the trace of URLs requested, or `none` when the attempt list is
exhausted.  Note the recursive retry call passes the already-resolved `url`
back as the endpoint template, exactly as the source does. -/
def send_request (opts : ClientOptions) (api_key : String) (dec : String → String)
    (endpoint : String) (args : List String) (kvargs : List (String × Option String)) :
    List HttpAttempt → Option (SendResult × List String)
  | [] => none
  | att :: rest =>
    match resolve_endpoint api_key endpoint args kvargs with
    | none => some (.raised .indexError, [])
    | some url =>
      match att with
      | .timeout => some (.ret none, [url])
      | .response status reason body =>
        if status = 200 then
          match body with
          | none => some (applyPolicy opts .jsonDecodeError, [url])
          | some j =>
            match respOfJSON dec j with
            | .ok r => some (.ret (some r), [url])
            | .error e => some (applyPolicy opts e, [url])
        else if status = 429 then
          if opts.swallow_429 then
            if opts.retry_on_429 then
              match send_request opts api_key dec url args kvargs rest with
              | none => none
              | some (res, trace) => some (res, url :: trace)
            else some (.ret none, [url])
          else
            some (applyPolicy opts
              (.brawlhalla 429 "Too Many Requests" (.str "Your API key has hit the rate limit.")), [url])
        else
          match body with
          | none => some (applyPolicy opts .jsonDecodeError, [url])
          | some j =>
            if j.truthy then
              match (subscript j "error").bind (fun e => subscript e "message") with
              | .ok m => some (applyPolicy opts (.brawlhalla status reason m), [url])
              | .error e => some (applyPolicy opts e, [url])
            else
              some (applyPolicy opts (.brawlhalla status reason (.str "No further details.")), [url])

end Brawlhalla



/-! ## Helper lemmas for the admission controller -/

namespace Brawlhalla
namespace RateBucket

/-- The capacity clamp `if cap < a then cap else a` is `min a cap`. -/
theorem clamp_eq_min (cap a : ℚ) : (if cap < a then cap else a) = min a cap := by
  rcases le_or_lt a cap with h | h
  · rw [if_neg (not_lt.mpr h), min_eq_left h]
  · rw [if_pos h, min_eq_right h.le]

/-- Refill leaves the two configured capacities unchanged. -/
theorem add_requests_capacities (b : RateBucket) (d : ℚ) :
    (add_requests b d).requests_per_15_minutes = b.requests_per_15_minutes ∧
    (add_requests b d).requests_per_second = b.requests_per_second := by
  by_cases he : 1 < b.elapsed_time + d <;> simp [add_requests, he]

/-- A `Bool`-valued Python `if`-return reads back as its condition. -/
theorem ite_tf_eq_true (P : Prop) [Decidable P] :
    ((if P then true else false) = true) ↔ P := by
  split_ifs with h <;> simp [h]

/-- Refill preserves the `[0, capacity]` invariant. -/
theorem inv_add_requests {b : RateBucket} (h : Inv b) (d : ℚ) : Inv (add_requests b d) := by
  obtain ⟨h1, h2, h3, h4⟩ := h
  have hc15 : 0 ≤ b.requests_per_15_minutes := h1.trans h2
  have hcS : 0 ≤ b.requests_per_second := h3.trans h4
  by_cases he : 1 < b.elapsed_time + d
  · have hfl : (1 : ℚ) ≤ ((⌊b.elapsed_time + d⌋ : ℤ) : ℚ) := by
      exact_mod_cast Int.le_floor.mpr (by exact_mod_cast he.le)
    have hfl0 : (0 : ℚ) ≤ ((⌊b.elapsed_time + d⌋ : ℤ) : ℚ) := zero_le_one.trans hfl
    simp only [Inv, add_requests, if_pos he, clamp_eq_min]
    refine ⟨?_, ?_, ?_, ?_⟩
    · exact le_min (add_nonneg h1 (mul_nonneg (mul_nonneg (by norm_num) hfl0) hc15)) hc15
    · exact min_le_right _ _
    · exact le_min (add_nonneg h3 (mul_nonneg hfl0 hcS)) hcS
    · exact min_le_right _ _
  · simp only [Inv, add_requests, if_neg he]
    exact ⟨h1, h2, h3, h4⟩

/-- Method `get_next_request` mutates the state exactly as one refill does. -/
theorem get_next_request_state (b : RateBucket) (d : ℚ) :
    (get_next_request b d).2 = add_requests b d := by
  simp only [get_next_request, can_request]
  split_ifs <;> rfl

/-- Case characterization of the value returned by `get_next_request`. -/
theorem get_next_request_fst (b : RateBucket) (d : ℚ) :
    (get_next_request b d).1 =
      (if 1 ≤ (add_requests b d).allowed_requests_per_15_minutes
          ∧ 1 ≤ (add_requests b d).allowed_requests_per_second then NextReq.wait 0
       else if (add_requests b d).allowed_requests_per_15_minutes < 1 then NextReq.wait 5
       else NextReq.wait 1) := by
  simp only [get_next_request, can_request]
  by_cases hab : 1 ≤ (add_requests b d).allowed_requests_per_15_minutes
      ∧ 1 ≤ (add_requests b d).allowed_requests_per_second
  · simp [hab]
  · by_cases h5 : (add_requests b d).allowed_requests_per_15_minutes < 1
    · simp [hab, h5]
    · have hbS : ¬ 1 ≤ (add_requests b d).allowed_requests_per_second := by
        intro hS
        exact hab ⟨not_lt.mp h5, hS⟩
      simp [hab, h5, not_le.mp hbS]

/-- One guarded-protocol operation preserves the invariant. -/
theorem inv_stepGuarded {b : RateBucket} (h : Inv b) (op : Op) : Inv (stepGuarded b op) := by
  cases op with
  | refill d => exact inv_add_requests h d
  | canReq d =>
    simpa only [stepGuarded, step, can_request] using inv_add_requests h d
  | nextReq d =>
    simpa only [stepGuarded, step, get_next_request_state] using inv_add_requests h d
  | commit =>
    obtain ⟨h1, h2, h3, h4⟩ := h
    unfold stepGuarded
    split_ifs with hg
    · obtain ⟨hga, hgb⟩ := hg
      refine ⟨?_, ?_, ?_, ?_⟩ <;> simp only [do_request] <;> linarith
    · exact ⟨h1, h2, h3, h4⟩

end RateBucket
end Brawlhalla

/-! ## Claims about the admission controller -/

namespace Brawlhalla
namespace RateBucket

/-- C1 (counterexample): the claimed invariant fails for arbitrary operation
sequences, because `do_request` decrements unconditionally.  A fresh bucket
with the default capacities (180 per 15 minutes, 10 per second) hit with 11
consecutive `do_request` calls drives the per-second counter to `-1`,
strictly below 0. -/
theorem c1_counterexample :
    (run (init 180 10) (List.replicate 11 .commit)).allowed_requests_per_second < 0 := by
  norm_num [run, step, do_request, init, List.replicate]

/-- C1 (amended): `do_request` itself has no precondition check and can drive
a counter negative; under the documented protocol — every commit performed
only when both counters are `≥ 1`, as the admission loop of the client guarantees —
every sequence of refill/can-request/next-wait/commit operations keeps both
counters within `[0, capacity]`. -/
theorem c1_guarded_invariant (r15 rs : ℚ) (h15 : 0 ≤ r15) (hs : 0 ≤ rs)
    (ops : List Op) : Inv (runGuarded (init r15 rs) ops) := by
  have hgen : ∀ (l : List Op) (b : RateBucket), Inv b → Inv (l.foldl stepGuarded b) := by
    intro l
    induction l with
    | nil => intro b hb; exact hb
    | cons op l ih =>
      intro b hb
      exact ih _ (inv_stepGuarded hb op)
  exact hgen ops _ ⟨h15, le_refl _, hs, le_refl _⟩

/-- C1 (witness): the guarded invariant at a concrete configuration and
operation sequence. -/
theorem c1_guarded_invariant_witness :
    Inv (runGuarded (init 180 10) [.refill 2, .commit, .canReq 0, .commit]) :=
  c1_guarded_invariant 180 10 (by norm_num) (by norm_num) _

/-- C2 (counterexample): the claim says token credit is converted exactly
when the carry buffer reaches `≥ 1` whole second.  The code requires the
buffer to strictly exceed 1.  Start from a full bucket of capacities
`(900, 10)`, spend one request, then refill after exactly 1 elapsed second:
the carry buffer reaches exactly 1, the spec-modelled refill credits the
per-second counter back to 10, but the code leaves it at 9. -/
theorem c2_counterexample :
    (add_requests (do_request (init 900 10)) 1).allowed_requests_per_second = 9
    ∧ (add_requests_spec (do_request (init 900 10)) 1).allowed_requests_per_second = 10
    ∧ (9 : ℚ) ≠ 10 := by
  refine ⟨?_, ?_, by norm_num⟩
  · norm_num [add_requests, do_request, init]
  · norm_num [add_requests_spec, do_request, init]

/-- C2 (amended): for every state and non-negative elapsed time, refill
accumulates the time into the carry buffer and converts it into credits
exactly when the buffer strictly exceeds 1 second; the credited whole-second
count is `⌊carry⌋ ≥ 1`, each counter is clamped (`min`) to its capacity, and
the remainder, lying in `[0, 1)`, is retained; otherwise the state is
unchanged except for the grown carry buffer. -/
theorem c2_refill_characterization (b : RateBucket) (d : ℚ) (_hd : 0 ≤ d) :
    (1 < b.elapsed_time + d →
      add_requests b d = { b with
        allowed_requests_per_15_minutes :=
          min (b.allowed_requests_per_15_minutes
            + (1 / 900) * ((⌊b.elapsed_time + d⌋ : ℤ) : ℚ) * b.requests_per_15_minutes)
            b.requests_per_15_minutes
        allowed_requests_per_second :=
          min (b.allowed_requests_per_second
            + ((⌊b.elapsed_time + d⌋ : ℤ) : ℚ) * b.requests_per_second)
            b.requests_per_second
        elapsed_time := b.elapsed_time + d - ((⌊b.elapsed_time + d⌋ : ℤ) : ℚ) }
      ∧ 1 ≤ ⌊b.elapsed_time + d⌋
      ∧ 0 ≤ b.elapsed_time + d - ((⌊b.elapsed_time + d⌋ : ℤ) : ℚ)
      ∧ b.elapsed_time + d - ((⌊b.elapsed_time + d⌋ : ℤ) : ℚ) < 1)
    ∧ (¬ 1 < b.elapsed_time + d →
        add_requests b d = { b with elapsed_time := b.elapsed_time + d }) := by
  constructor
  · intro he
    refine ⟨?_, ?_, ?_, ?_⟩
    · simp only [add_requests, if_pos he, clamp_eq_min]
    · exact Int.le_floor.mpr (by exact_mod_cast he.le)
    · have := Int.floor_le (b.elapsed_time + d)
      linarith
    · have := Int.lt_floor_add_one (b.elapsed_time + d)
      linarith
  · intro he
    simp only [add_requests, if_neg he]

/-- C2 (witness): refilling a full `(900, 10)` bucket after 2 whole seconds
credits and clamps both counters back to capacity and empties the carry
buffer, i.e. returns the initial state. -/
theorem c2_refill_characterization_witness :
    add_requests (init 900 10) 2 = init 900 10 := by
  have h := ((c2_refill_characterization (init 900 10) 2 (by norm_num)).1
    (by norm_num [init])).1
  rw [h]
  norm_num [init]

/-- C3 (counterexample): a backward clock jump is not floored at zero elapsed
time — the negative interval is accumulated into the carry buffer, and
previously accumulated carry can still trigger a credit.  In the state with
capacities `(900, 10)`, counters `(899, 9)` and carry `3/2`, a refill
observing the negative interval `-1/5` still credits one whole second and
raises the per-second counter from 9 to 10. -/
theorem c3_counterexample :
    (⟨900, 10, 899, 9, 3/2⟩ : RateBucket).allowed_requests_per_second
      < (add_requests ⟨900, 10, 899, 9, 3/2⟩ (-(1/5))).allowed_requests_per_second := by
  norm_num [add_requests]

/-- C3 (amended): a negative interval is accumulated into the carry buffer
rather than floored at zero; nevertheless, in any state whose counters do not
exceed their (non-negative) capacities, a refill observing a negative
interval never leaves either counter above what a refill with zero elapsed
time would have produced, so a backward clock jump never inflates tokens. -/
theorem c3_negative_delta_monotone (b : RateBucket) (d : ℚ) (hd : d ≤ 0)
    (hc15 : 0 ≤ b.requests_per_15_minutes) (hcS : 0 ≤ b.requests_per_second)
    (h2 : b.allowed_requests_per_15_minutes ≤ b.requests_per_15_minutes)
    (h4 : b.allowed_requests_per_second ≤ b.requests_per_second) :
    (add_requests b d).allowed_requests_per_15_minutes
      ≤ (add_requests b 0).allowed_requests_per_15_minutes
    ∧ (add_requests b d).allowed_requests_per_second
      ≤ (add_requests b 0).allowed_requests_per_second := by
  have he : b.elapsed_time + d ≤ b.elapsed_time + 0 := by linarith
  by_cases hD : 1 < b.elapsed_time + d
  · have h0 : 1 < b.elapsed_time + 0 := lt_of_lt_of_le hD he
    have hflmono : ((⌊b.elapsed_time + d⌋ : ℤ) : ℚ) ≤ ((⌊b.elapsed_time + 0⌋ : ℤ) : ℚ) := by
      exact_mod_cast Int.floor_le_floor he
    simp only [add_requests, if_pos hD, if_pos h0, clamp_eq_min]
    constructor
    · refine min_le_min ?_ le_rfl
      have : (1 / 900 : ℚ) * ((⌊b.elapsed_time + d⌋ : ℤ) : ℚ) * b.requests_per_15_minutes
          ≤ (1 / 900 : ℚ) * ((⌊b.elapsed_time + 0⌋ : ℤ) : ℚ) * b.requests_per_15_minutes := by
        apply mul_le_mul_of_nonneg_right _ hc15
        apply mul_le_mul_of_nonneg_left hflmono (by norm_num)
      linarith
    · refine min_le_min ?_ le_rfl
      have := mul_le_mul_of_nonneg_right hflmono hcS
      linarith
  · by_cases h0 : 1 < b.elapsed_time + 0
    · have hfl1 : (1 : ℚ) ≤ ((⌊b.elapsed_time + 0⌋ : ℤ) : ℚ) := by
        exact_mod_cast Int.le_floor.mpr (by exact_mod_cast h0.le)
      have hfl0 : (0 : ℚ) ≤ ((⌊b.elapsed_time + 0⌋ : ℤ) : ℚ) := zero_le_one.trans hfl1
      simp only [add_requests, if_neg hD, if_pos h0, clamp_eq_min]
      constructor
      · exact le_min (le_add_of_nonneg_right
          (mul_nonneg (mul_nonneg (by norm_num) hfl0) hc15)) h2
      · exact le_min (le_add_of_nonneg_right (mul_nonneg hfl0 hcS)) h4
    · simp only [add_requests, if_neg hD, if_neg h0]
      exact ⟨le_refl _, le_refl _⟩

/-- C3 (witness): the monotonicity bound at a concrete state and a concrete
backward jump. -/
theorem c3_negative_delta_monotone_witness :
    (add_requests ⟨900, 10, 899, 9, 1/2⟩ (-1)).allowed_requests_per_15_minutes
      ≤ (add_requests ⟨900, 10, 899, 9, 1/2⟩ 0).allowed_requests_per_15_minutes
    ∧ (add_requests ⟨900, 10, 899, 9, 1/2⟩ (-1)).allowed_requests_per_second
      ≤ (add_requests ⟨900, 10, 899, 9, 1/2⟩ 0).allowed_requests_per_second :=
  c3_negative_delta_monotone ⟨900, 10, 899, 9, 1/2⟩ (-1)
    (by norm_num) (by norm_num) (by norm_num) (by norm_num) (by norm_num)

/-- C8: `get_next_request` is total and its trailing `raise` is unreachable:
the refilled state is exactly `add_requests`; the result is never the raise
branch; it is a zero wait exactly when `can_request` holds; it is the coarse
5-second wait whenever the 15-minute counter is below 1; and it is the
1-second wait when only the per-second counter is below 1. -/
theorem c8_get_next_request_total (b : RateBucket) (d : ℚ) :
    (get_next_request b d).2 = add_requests b d
    ∧ (get_next_request b d).1 ≠ NextReq.raiseUnreachable
    ∧ ((get_next_request b d).1 = NextReq.wait 0 ↔ (can_request b d).1 = true)
    ∧ ((add_requests b d).allowed_requests_per_15_minutes < 1 →
        (get_next_request b d).1 = NextReq.wait 5)
    ∧ (1 ≤ (add_requests b d).allowed_requests_per_15_minutes →
        (add_requests b d).allowed_requests_per_second < 1 →
        (get_next_request b d).1 = NextReq.wait 1) := by
  have hcan : (can_request b d).1 = true ↔
      (1 ≤ (add_requests b d).allowed_requests_per_15_minutes
        ∧ 1 ≤ (add_requests b d).allowed_requests_per_second) := by
    simp only [can_request]
    exact ite_tf_eq_true _
  refine ⟨get_next_request_state b d, ?_, ?_, ?_, ?_⟩
  · rw [get_next_request_fst]
    split_ifs <;> simp
  · rw [get_next_request_fst, hcan]
    split_ifs with hab h5
    · simp [hab]
    · simp [hab]
    · simp [hab]
  · intro h5
    rw [get_next_request_fst]
    rw [if_neg (by intro hab; linarith [hab.1]), if_pos h5]
  · intro ha hS
    rw [get_next_request_fst]
    rw [if_neg (by intro hab; linarith [hab.2]), if_neg (by linarith)]

/-- C8 (witness): on a fresh default bucket with no elapsed time, the next
wait is zero. -/
theorem c8_get_next_request_total_witness :
    (get_next_request (init 180 10) 0).1 = NextReq.wait 0 :=
  (c8_get_next_request_total (init 180 10) 0).2.2.1.mpr
    (by norm_num [can_request, add_requests, init])

end RateBucket
end Brawlhalla

/-! ## Helper lemmas for response normalization -/

namespace Brawlhalla

/-- Inversion of `Except.map` returning a success. -/
theorem exceptMap_eq_ok {ε α β : Type} (f : α → β) (x : Except ε α) (b : β) :
    x.map f = .ok b ↔ ∃ a, x = .ok a ∧ b = f a := by
  cases x <;> simp [Except.map, eq_comm]

/-- Unfolding `convFields` at the entry targeted by the fix-up. -/
theorem convFields_cons_fix (dec : String → String) (fk fv k : String) (v : JSON)
    (rest : List (String × JSON)) (hk : k = fk) :
    convFields dec (some (fk, fv)) ((k, v) :: rest) =
      (convFields dec none rest).map (fun t => (k, RVal.raw (.str fv)) :: t) := by
  cases v with
  | arr ys => rw [convFields, if_pos hk]
  | null =>
    rw [convFields, if_pos hk]
    exact fun ys h2 => JSON.noConfusion h2
  | bool b =>
    rw [convFields, if_pos hk]
    exact fun ys h2 => JSON.noConfusion h2
  | num n =>
    rw [convFields, if_pos hk]
    exact fun ys h2 => JSON.noConfusion h2
  | str s =>
    rw [convFields, if_pos hk]
    exact fun ys h2 => JSON.noConfusion h2
  | obj gs =>
    rw [convFields, if_pos hk]
    exact fun ys h2 => JSON.noConfusion h2

/-- Unfolding `convFields` at a list-valued entry not targeted by the
fix-up. -/
theorem convFields_cons_arr (dec : String → String) (fi : Option (String × String))
    (k : String) (ys : List JSON) (rest : List (String × JSON))
    (hfi : ∀ fv, fi ≠ some (k, fv)) :
    convFields dec fi ((k, .arr ys) :: rest) =
      (match respListOfJSON dec ys with
       | .error e => .error e
       | .ok rs => (convFields dec fi rest).map (fun t => (k, RVal.respList rs) :: t)) := by
  cases fi with
  | none => rw [convFields]
  | some pr =>
    obtain ⟨fk, fv⟩ := pr
    have hne : ¬ k = fk := fun h => hfi fv (by rw [h])
    rw [convFields, if_neg hne]

/-- Unfolding `convFields` at a non-list entry not targeted by the fix-up. -/
theorem convFields_cons_other (dec : String → String) (fi : Option (String × String))
    (k : String) (v : JSON) (rest : List (String × JSON))
    (hfi : ∀ fv, fi ≠ some (k, fv)) (hv : ∀ ys, v ≠ .arr ys) :
    convFields dec fi ((k, v) :: rest) =
      (convFields dec fi rest).map (fun t => (k, RVal.raw v) :: t) := by
  cases fi with
  | none =>
    cases v with
    | arr ys => exact absurd rfl (hv ys)
    | null =>
      rw [convFields]
      exact fun ys h2 => JSON.noConfusion h2
    | bool b =>
      rw [convFields]
      exact fun ys h2 => JSON.noConfusion h2
    | num n =>
      rw [convFields]
      exact fun ys h2 => JSON.noConfusion h2
    | str s =>
      rw [convFields]
      exact fun ys h2 => JSON.noConfusion h2
    | obj gs =>
      rw [convFields]
      exact fun ys h2 => JSON.noConfusion h2
  | some pr =>
    obtain ⟨fk, fv⟩ := pr
    have hne : ¬ k = fk := fun h => hfi fv (by rw [h])
    cases v with
    | arr ys => exact absurd rfl (hv ys)
    | null =>
      rw [convFields, if_neg hne]
      exact fun ys h2 => JSON.noConfusion h2
    | bool b =>
      rw [convFields, if_neg hne]
      exact fun ys h2 => JSON.noConfusion h2
    | num n =>
      rw [convFields, if_neg hne]
      exact fun ys h2 => JSON.noConfusion h2
    | str s =>
      rw [convFields, if_neg hne]
      exact fun ys h2 => JSON.noConfusion h2
    | obj gs =>
      rw [convFields, if_neg hne]
      exact fun ys h2 => JSON.noConfusion h2

/-- Full inversion of one step of the `convFields` loop. -/
theorem convFields_cons_inv (dec : String → String) (fi : Option (String × String))
    (k : String) (v : JSON) (rest : List (String × JSON)) (fds : List (String × RVal))
    (h : convFields dec fi ((k, v) :: rest) = .ok fds) :
    ∃ rv fi2 t, fds = (k, rv) :: t ∧ convFields dec fi2 rest = .ok t ∧
      ((∃ fv, fi = some (k, fv) ∧ fi2 = none ∧ rv = RVal.raw (.str fv))
       ∨ ((∀ fv, fi ≠ some (k, fv)) ∧ fi2 = fi ∧
           ((∃ ys rs, v = .arr ys ∧ respListOfJSON dec ys = .ok rs ∧ rv = RVal.respList rs)
            ∨ ((∀ ys, v ≠ .arr ys) ∧ rv = RVal.raw v)))) := by
  have hcase : (∃ fv, fi = some (k, fv)) ∨ (∀ fv, fi ≠ some (k, fv)) := by
    cases fi with
    | none => exact Or.inr (fun fv h2 => by cases h2)
    | some pr =>
      obtain ⟨fk, fv⟩ := pr
      by_cases hk : fk = k
      · subst hk; exact Or.inl ⟨fv, rfl⟩
      · refine Or.inr (fun z h2 => ?_)
        injection h2 with h3
        exact hk (congrArg Prod.fst h3)
  rcases hcase with ⟨fv, rfl⟩ | hfi
  · rw [convFields_cons_fix dec k fv k v rest rfl] at h
    rw [exceptMap_eq_ok] at h
    obtain ⟨t, ht, rfl⟩ := h
    exact ⟨RVal.raw (.str fv), none, t, rfl, ht, Or.inl ⟨fv, rfl, rfl, rfl⟩⟩
  · have harr : (∃ ys, v = .arr ys) ∨ (∀ ys, v ≠ .arr ys) := by
      cases v with
      | arr ys => exact Or.inl ⟨ys, rfl⟩
      | null => exact Or.inr (fun ys h2 => by cases h2)
      | bool b => exact Or.inr (fun ys h2 => by cases h2)
      | num n => exact Or.inr (fun ys h2 => by cases h2)
      | str s => exact Or.inr (fun ys h2 => by cases h2)
      | obj gs => exact Or.inr (fun ys h2 => by cases h2)
    rcases harr with ⟨ys, rfl⟩ | hnv
    · rw [convFields_cons_arr dec fi k ys rest hfi] at h
      cases hys : respListOfJSON dec ys with
      | error e => rw [hys] at h; cases h
      | ok rs =>
        rw [hys] at h
        rw [exceptMap_eq_ok] at h
        obtain ⟨t, ht, rfl⟩ := h
        exact ⟨RVal.respList rs, fi, t, rfl, ht,
          Or.inr ⟨hfi, rfl, Or.inl ⟨ys, rs, rfl, hys, rfl⟩⟩⟩
    · rw [convFields_cons_other dec fi k v rest hfi hnv] at h
      rw [exceptMap_eq_ok] at h
      obtain ⟨t, ht, rfl⟩ := h
      exact ⟨RVal.raw v, fi, t, rfl, ht, Or.inr ⟨hfi, rfl, Or.inr ⟨hnv, rfl⟩⟩⟩

/-- The loop `convFields` preserves the field names, in order. -/
theorem convFields_keys (dec : String → String) :
    ∀ (fs : List (String × JSON)) (fi : Option (String × String)) (fds : List (String × RVal)),
      convFields dec fi fs = .ok fds → fds.map Prod.fst = fs.map Prod.fst := by
  intro fs
  induction fs with
  | nil =>
    intro fi fds h
    rw [convFields] at h
    cases h
    rfl
  | cons p rest ih =>
    obtain ⟨k, v⟩ := p
    intro fi fds h
    obtain ⟨rv, fi2, t, rfl, ht, -⟩ := convFields_cons_inv dec fi k v rest fds h
    simpa using ih fi2 t ht

/-- The first occurrence of the fix-up key receives the decoded value. -/
theorem convFields_lookup_fix (dec : String → String) :
    ∀ (fs : List (String × JSON)) (fds : List (String × RVal)) (fk fv : String) (v0 : JSON),
      convFields dec (some (fk, fv)) fs = .ok fds →
      lookupField fk fs = some v0 →
      lookupRVal fk fds = some (RVal.raw (.str fv)) := by
  intro fs
  induction fs with
  | nil =>
    intro fds fk fv v0 _ hlk
    cases hlk
  | cons p rest ih =>
    obtain ⟨k, v⟩ := p
    intro fds fk fv v0 h hlk
    obtain ⟨rv, fi2, t, rfl, ht, hcases⟩ := convFields_cons_inv dec _ k v rest fds h
    rcases hcases with ⟨z, hz, hfi2, rfl⟩ | ⟨hne, hfi2, -⟩
    · injection hz with hz2
      have hk : k = fk := (congrArg Prod.fst hz2).symm
      have hzv : z = fv := (congrArg Prod.snd hz2).symm
      subst hk
      subst hzv
      simp [lookupRVal]
    · have hk : ¬ k = fk := by
        intro hkk
        exact hne fv (by rw [hkk])
      rw [lookupField] at hlk
      rw [if_neg hk] at hlk
      rw [lookupRVal, if_neg hk]
      subst hfi2
      exact ih t fk fv v0 ht hlk

/-- A string-valued field not targeted by the fix-up passes through
unchanged. -/
theorem convFields_lookup_str (dec : String → String) :
    ∀ (fs : List (String × JSON)) (fds : List (String × RVal))
      (fi : Option (String × String)) (k s : String),
      (∀ fv, fi ≠ some (k, fv)) →
      convFields dec fi fs = .ok fds →
      lookupField k fs = some (.str s) →
      lookupRVal k fds = some (RVal.raw (.str s)) := by
  intro fs
  induction fs with
  | nil =>
    intro fds fi k s _ _ hlk
    cases hlk
  | cons p rest ih =>
    obtain ⟨k1, v⟩ := p
    intro fds fi k s hfi h hlk
    obtain ⟨rv, fi2, t, rfl, ht, hcases⟩ := convFields_cons_inv dec fi k1 v rest fds h
    by_cases hk : k1 = k
    · subst hk
      rw [lookupField, if_pos rfl] at hlk
      injection hlk with hv
      subst hv
      rcases hcases with ⟨z, hz, -, -⟩ | ⟨-, -, harr | ⟨-, rfl⟩⟩
      · exact absurd hz (hfi z)
      · obtain ⟨ys, rs, hys, -, -⟩ := harr
        cases hys
      · rw [lookupRVal, if_pos rfl]
    · rw [lookupField, if_neg hk] at hlk
      rw [lookupRVal, if_neg hk]
      rcases hcases with ⟨z, hz, rfl, -⟩ | ⟨-, hfi2, -⟩
      · exact ih t none k s (fun fv h2 => by cases h2) ht hlk
      · subst hfi2
        exact ih t fi2 k s hfi ht hlk

/-- A list-valued field not targeted by the fix-up is recursively normalized
into a list of `Response`s. -/
theorem convFields_lookup_arr (dec : String → String) :
    ∀ (fs : List (String × JSON)) (fds : List (String × RVal))
      (fi : Option (String × String)) (k : String) (ys : List JSON),
      (∀ fv, fi ≠ some (k, fv)) →
      convFields dec fi fs = .ok fds →
      lookupField k fs = some (.arr ys) →
      ∃ rs, respListOfJSON dec ys = .ok rs
        ∧ lookupRVal k fds = some (RVal.respList rs) := by
  intro fs
  induction fs with
  | nil =>
    intro fds fi k ys _ _ hlk
    cases hlk
  | cons p rest ih =>
    obtain ⟨k1, v⟩ := p
    intro fds fi k ys hfi h hlk
    obtain ⟨rv, fi2, t, rfl, ht, hcases⟩ := convFields_cons_inv dec fi k1 v rest fds h
    by_cases hk : k1 = k
    · subst hk
      rw [lookupField, if_pos rfl] at hlk
      injection hlk with hv
      subst hv
      rcases hcases with ⟨z, hz, -, -⟩ | ⟨-, -, ⟨ys2, rs, hys2, hrs, rfl⟩ | ⟨hnv, -⟩⟩
      · exact absurd hz (hfi z)
      · injection hys2 with hys3
        subst hys3
        refine ⟨rs, hrs, ?_⟩
        rw [lookupRVal, if_pos rfl]
      · exact absurd rfl (hnv ys)
    · rw [lookupField, if_neg hk] at hlk
      rcases hcases with ⟨z, hz, rfl, -⟩ | ⟨-, hfi2, -⟩
      · obtain ⟨rs, hrs, hlv⟩ := ih t none k ys (fun fv h2 => by cases h2) ht hlk
        refine ⟨rs, hrs, ?_⟩
        rw [lookupRVal, if_neg hk]
        exact hlv
      · subst hfi2
        obtain ⟨rs, hrs, hlv⟩ := ih t fi2 k ys hfi ht hlk
        refine ⟨rs, hrs, ?_⟩
        rw [lookupRVal, if_neg hk]
        exact hlv

/-- Inversion of a successful `checkFix`: the fix-up target, when present, is
a key whose value in the mapping is a string. -/
theorem checkFix_ok_inv (dec : String → String) (fs : List (String × JSON))
    (fi : Option (String × String)) (h : checkFix dec fs = .ok fi) :
    fi = none ∨ ∃ fk s, fi = some (fk, dec s) ∧ lookupField fk fs = some (.str s) := by
  unfold checkFix at h
  cases hn : lookupField "name" fs with
  | some v =>
    rw [hn] at h
    cases v with
    | str s =>
      injection h with h2
      exact Or.inr ⟨"name", s, h2.symm, hn⟩
    | null => cases h
    | bool b => cases h
    | num n => cases h
    | arr ys => cases h
    | obj gs => cases h
  | none =>
    rw [hn] at h
    cases htn : lookupField "teamname" fs with
    | some v =>
      rw [htn] at h
      cases v with
      | str s =>
        injection h with h2
        exact Or.inr ⟨"teamname", s, h2.symm, htn⟩
      | null => cases h
      | bool b => cases h
      | num n => cases h
      | arr ys => cases h
      | obj gs => cases h
    | none =>
      rw [htn] at h
      injection h with h2
      exact Or.inl h2.symm

/-- Inversion of a successful dict-branch normalization. -/
theorem respOfJSON_obj_inv (dec : String → String) (fs : List (String × JSON)) (r : Resp)
    (h : respOfJSON dec (.obj fs) = .ok r) :
    ∃ fi fds, checkFix dec fs = .ok fi ∧ convFields dec fi fs = .ok fds ∧ r = .objR fds := by
  rw [respOfJSON] at h
  cases hcf : checkFix dec fs with
  | error e => rw [hcf] at h; cases h
  | ok fi =>
    rw [hcf] at h
    rw [exceptMap_eq_ok] at h
    obtain ⟨fds, hfds, rfl⟩ := h
    exact ⟨fi, fds, rfl, hfds, rfl⟩

/-- Successful element-wise normalization relates input and output lists
pointwise, preserving length and order. -/
theorem respListOfJSON_forall2 (dec : String → String) :
    ∀ (xs : List JSON) (rs : List Resp), respListOfJSON dec xs = .ok rs →
      List.Forall₂ (fun x r => respOfJSON dec x = .ok r) xs rs := by
  intro xs
  induction xs with
  | nil =>
    intro rs h
    rw [respListOfJSON] at h
    cases h
    exact .nil
  | cons x xs ih =>
    intro rs h
    rw [respListOfJSON] at h
    cases hx : respOfJSON dec x with
    | error e => rw [hx] at h; cases h
    | ok r =>
      rw [hx] at h
      cases hxs : respListOfJSON dec xs with
      | error e => rw [hxs] at h; cases h
      | ok rs2 =>
        rw [hxs] at h
        cases h
        exact .cons hx (ih rs2 hxs)
end Brawlhalla

/-! ## Claims about the request pipeline -/

namespace Brawlhalla

/-- C4 (counterexample): with `swallow_429 = false` the claim says the 429
condition is raised to the caller whatever the other flags; but the `raise`
sits inside the `try`, so with `propagate_exceptions = false` the generic
handler swallows it and the call returns `None`. -/
theorem c4_counterexample :
    send_request { swallow_429 := false, propagate_exceptions := false } "KEY" (fun s => s)
      "search" [] [("steamid", some "1")] [.response 429 "Too Many Requests" none]
    = some (.ret none, ["https://api.brawlhalla.com/search/?steamid=1&api_key=KEY"]) := by
  rfl

/-- C4 (amended): on a 429 response, if `swallow_429` is set and
`retry_on_429` is not, the call returns `None` and raises nothing, whatever
the other flags; if `swallow_429` is unset, the rate-limit exception reaches
the caller only when `propagate_exceptions` is set — when it is unset the
generic handler turns it into a `None` return instead. -/
theorem c4_rate_limit_policy (opts : ClientOptions) (api_key : String) (dec : String → String)
    (endpoint : String) (args : List String) (kvargs : List (String × Option String))
    (url reason : String) (body : Option JSON) (rest : List HttpAttempt)
    (hres : resolve_endpoint api_key endpoint args kvargs = some url) :
    (opts.swallow_429 = true → opts.retry_on_429 = false →
      send_request opts api_key dec endpoint args kvargs (.response 429 reason body :: rest)
        = some (.ret none, [url]))
    ∧ (opts.swallow_429 = false → opts.propagate_exceptions = true →
      send_request opts api_key dec endpoint args kvargs (.response 429 reason body :: rest)
        = some (.raised (.brawlhalla 429 "Too Many Requests"
            (.str "Your API key has hit the rate limit.")), [url]))
    ∧ (opts.swallow_429 = false → opts.propagate_exceptions = false →
      send_request opts api_key dec endpoint args kvargs (.response 429 reason body :: rest)
        = some (.ret none, [url])) := by
  refine ⟨?_, ?_, ?_⟩ <;> intro h1 h2 <;>
    simp [send_request, hres, h1, h2, applyPolicy]

/-- C4 (witness): a 429 with the default options (`swallow_429 = true`,
`retry_on_429 = false`, `propagate_exceptions = true`) returns `None`. -/
theorem c4_rate_limit_policy_witness :
    send_request {} "KEY" (fun s => s) "search" [] [("steamid", some "1")]
      [.response 429 "Too Many Requests" none]
    = some (.ret none, ["https://api.brawlhalla.com/search/?steamid=1&api_key=KEY"]) :=
  (c4_rate_limit_policy {} "KEY" (fun s => s) "search" [] [("steamid", some "1")]
    "https://api.brawlhalla.com/search/?steamid=1&api_key=KEY" "Too Many Requests" none []
    (by rfl)).1 rfl rfl

/-- C5 (code bug): with `swallow_429` and `retry_on_429` both set, the retry
passes the already-resolved absolute URL back through
`__resolve_endpoint`, so the retried attempt requests a doubly-prefixed URL
with a second copy of the query string instead of the original URL.  The
success payload of the retried 200 is still returned, but the claim that the
retried attempt targets the same URL as the original fails: the trace below
shows the two URLs, and they differ. -/
theorem c5_retry_url_bug :
    send_request { swallow_429 := true, retry_on_429 := true } "KEY" (fun s => s) "search" []
      [("steamid", some "1")]
      [.response 429 "Too Many Requests" none,
       .response 200 "OK" (some (.obj [("brawlhalla_id", .num 2)]))]
    = some (.ret (some (.objR [("brawlhalla_id", .raw (.num 2))])),
      ["https://api.brawlhalla.com/search/?steamid=1&api_key=KEY",
       "https://api.brawlhalla.com/https://api.brawlhalla.com/search/?steamid=1&api_key=KEY/?steamid=1&api_key=KEY"])
    ∧ "https://api.brawlhalla.com/https://api.brawlhalla.com/search/?steamid=1&api_key=KEY/?steamid=1&api_key=KEY"
      ≠ "https://api.brawlhalla.com/search/?steamid=1&api_key=KEY" :=
  ⟨rfl, by decide⟩

/-- C6: a timed-out dispatch always returns `None` and never raises: the
`asyncio.TimeoutError` handler precedes the generic one and is unconditional,
so this holds for every configuration of the policy flags. -/
theorem c6_timeout_returns_none (opts : ClientOptions) (api_key : String) (dec : String → String)
    (endpoint : String) (args : List String) (kvargs : List (String × Option String))
    (url : String) (rest : List HttpAttempt)
    (hres : resolve_endpoint api_key endpoint args kvargs = some url) :
    send_request opts api_key dec endpoint args kvargs (.timeout :: rest)
      = some (.ret none, [url]) := by
  simp [send_request, hres]

/-- C6 (witness): a timeout with `propagate_exceptions` disabled (and
otherwise default flags) returns `None`. -/
theorem c6_timeout_returns_none_witness :
    send_request { propagate_exceptions := false } "KEY" (fun s => s) "search" []
      [("steamid", some "1")] [.timeout]
    = some (.ret none, ["https://api.brawlhalla.com/search/?steamid=1&api_key=KEY"]) :=
  c6_timeout_returns_none { propagate_exceptions := false } "KEY" (fun s => s) "search" []
    [("steamid", some "1")] "https://api.brawlhalla.com/search/?steamid=1&api_key=KEY" []
    (by rfl)

/-- C7 (counterexample): the claim says a missing error detail defaults to
the generic placeholder.  But the code only defaults when the parsed body is
falsy; on a 500 whose body is a non-empty object without an `error.message`
field, the `data["error"]` lookup raises `KeyError`, and with
`propagate_exceptions` set the caller receives that `KeyError` — not an
error carrying status 500, the reason phrase and the placeholder detail. -/
theorem c7_counterexample :
    send_request { propagate_exceptions := true } "KEY" (fun s => s) "search" []
      [("steamid", some "1")]
      [.response 500 "Internal Server Error" (some (.obj [("foo", .num 1)]))]
    = some (.raised (.keyError "error"), ["https://api.brawlhalla.com/search/?steamid=1&api_key=KEY"])
    ∧ PyErr.keyError "error"
      ≠ PyErr.brawlhalla 500 "Internal Server Error" (.str "No further details.") :=
  ⟨rfl, fun h => PyErr.noConfusion h⟩

/-- C7 (amended): for a response with status other than 200 and 429: an
unparseable body raises the JSON decode error through the policy handler; a
falsy parsed body produces the error with the generic placeholder detail; a
truthy body whose `error.message` lookup succeeds produces the error with
that detail; a truthy body whose lookup fails propagates the lookup exception
itself (which carries no status); and in each case `propagate_exceptions`
decides between raising and returning `None`. -/
theorem c7_error_classification (opts : ClientOptions) (api_key : String) (dec : String → String)
    (endpoint : String) (args : List String) (kvargs : List (String × Option String))
    (url : String) (status : ℕ) (reason : String) (rest : List HttpAttempt)
    (hres : resolve_endpoint api_key endpoint args kvargs = some url)
    (h200 : status ≠ 200) (h429 : status ≠ 429) :
    (send_request opts api_key dec endpoint args kvargs (.response status reason none :: rest)
        = some (applyPolicy opts .jsonDecodeError, [url]))
    ∧ (∀ j : JSON, j.truthy = false →
        send_request opts api_key dec endpoint args kvargs
            (.response status reason (some j) :: rest)
          = some (applyPolicy opts (.brawlhalla status reason (.str "No further details.")), [url]))
    ∧ (∀ (j m : JSON), j.truthy = true →
        (subscript j "error").bind (fun v => subscript v "message") = .ok m →
        send_request opts api_key dec endpoint args kvargs
            (.response status reason (some j) :: rest)
          = some (applyPolicy opts (.brawlhalla status reason m), [url]))
    ∧ (∀ (j : JSON) (e : PyErr), j.truthy = true →
        (subscript j "error").bind (fun v => subscript v "message") = .error e →
        send_request opts api_key dec endpoint args kvargs
            (.response status reason (some j) :: rest)
          = some (applyPolicy opts e, [url]))
    ∧ (∀ e : PyErr, opts.propagate_exceptions = true → applyPolicy opts e = .raised e)
    ∧ (∀ e : PyErr, opts.propagate_exceptions = false → applyPolicy opts e = .ret none) := by
  refine ⟨?_, ?_, ?_, ?_, ?_, ?_⟩
  · simp [send_request, hres, h200, h429]
  · intro j hj
    simp [send_request, hres, h200, h429, hj]
  · intro j m hj hm
    simp [send_request, hres, h200, h429, hj, hm]
  · intro j e hj hm
    simp [send_request, hres, h200, h429, hj, hm]
  · intro e hp
    simp [applyPolicy, hp]
  · intro e hp
    simp [applyPolicy, hp]

/-- C7 (witness): a 500 whose body parses to JSON `null` (falsy) with
`propagate_exceptions` disabled resolves to the placeholder-detail error,
which the policy turns into a `None` return. -/
theorem c7_error_classification_witness :
    send_request { propagate_exceptions := false } "KEY" (fun s => s) "search" []
      [("steamid", some "1")] [.response 500 "Internal Server Error" (some .null)]
      = some (applyPolicy { propagate_exceptions := false }
          (.brawlhalla 500 "Internal Server Error" (.str "No further details.")),
        ["https://api.brawlhalla.com/search/?steamid=1&api_key=KEY"])
    ∧ applyPolicy { propagate_exceptions := false }
        (.brawlhalla 500 "Internal Server Error" (.str "No further details.")) = .ret none := by
  have h := c7_error_classification { propagate_exceptions := false } "KEY" (fun s => s)
    "search" [] [("steamid", some "1")]
    "https://api.brawlhalla.com/search/?steamid=1&api_key=KEY" 500 "Internal Server Error" []
    (by rfl) (by norm_num) (by norm_num)
  exact ⟨h.2.1 .null rfl, h.2.2.2.2.2 _ rfl⟩

end Brawlhalla


/-! ## Claims about response normalization -/

namespace Brawlhalla

/-- C9: a JSON array normalizes to the sequence of its per-element
normalized objects, in order (stated both as the defining equation and as a
pointwise `Forall₂` correspondence); a JSON object normalizes to a single
object exposing exactly the original field names, in order; an array
appearing as a field value is recursively normalized into a list of
normalized objects; and the concrete array from the specification scenario
yields two objects whose field `a` is 1 and 2 respectively, in that order. -/
theorem c9_normalization :
    (∀ (dec : String → String) (xs : List JSON),
      respOfJSON dec (.arr xs) = (respListOfJSON dec xs).map Resp.listWrap)
    ∧ (∀ (dec : String → String) (xs : List JSON) (rs : List Resp),
        respListOfJSON dec xs = .ok rs →
        List.Forall₂ (fun x r => respOfJSON dec x = .ok r) xs rs)
    ∧ (∀ (dec : String → String) (fs : List (String × JSON)) (fds : List (String × RVal)),
        respOfJSON dec (.obj fs) = .ok (.objR fds) →
        fds.map Prod.fst = fs.map Prod.fst)
    ∧ (∀ (dec : String → String) (fs : List (String × JSON)) (fds : List (String × RVal))
        (k : String) (ys : List JSON),
        respOfJSON dec (.obj fs) = .ok (.objR fds) →
        lookupField k fs = some (.arr ys) →
        ∃ rs, respListOfJSON dec ys = .ok rs ∧ lookupRVal k fds = some (.respList rs))
    ∧ (∀ dec : String → String,
        respOfJSON dec (.arr [.obj [("a", .num 1)], .obj [("a", .num 2)]])
          = .ok (.listWrap [.objR [("a", .raw (.num 1))], .objR [("a", .raw (.num 2))]])
        ∧ lookupRVal "a" [("a", RVal.raw (.num 1))] = some (.raw (.num 1))
        ∧ lookupRVal "a" [("a", RVal.raw (.num 2))] = some (.raw (.num 2))) := by
  refine ⟨?_, respListOfJSON_forall2, ?_, ?_, ?_⟩
  · intro dec xs
    rw [respOfJSON]
  · intro dec fs fds h
    obtain ⟨fi, fds0, hcf, hcv, hr⟩ := respOfJSON_obj_inv dec fs _ h
    injection hr with hr2
    rw [hr2]
    exact convFields_keys dec fs fi fds0 hcv
  · intro dec fs fds k ys h hlk
    obtain ⟨fi, fds0, hcf, hcv, hr⟩ := respOfJSON_obj_inv dec fs _ h
    injection hr with hr2
    rw [hr2]
    have hfi : ∀ fv, fi ≠ some (k, fv) := by
      intro fv hsome
      rcases checkFix_ok_inv dec fs fi hcf with rfl | ⟨fk, s, rfl, hlks⟩
      · cases hsome
      · injection hsome with h3
        have hks : fk = k := congrArg Prod.fst h3
        rw [hks] at hlks
        rw [hlks] at hlk
        injection hlk with h4
        exact JSON.noConfusion h4
    exact convFields_lookup_arr dec fs fds0 fi k ys hfi hcv hlk
  · intro dec
    refine ⟨?_, rfl, rfl⟩
    simp [respOfJSON, respListOfJSON, convFields, checkFix, lookupField, Except.map]

/-- C9 (witness): the scenario array at the identity decoding. -/
theorem c9_normalization_witness :
    respOfJSON (fun s => s) (.arr [.obj [("a", .num 1)], .obj [("a", .num 2)]])
      = .ok (.listWrap [.objR [("a", .raw (.num 1))], .objR [("a", .raw (.num 2))]]) :=
  (c9_normalization.2.2.2.2 (fun s => s)).1

/-- C10: in an object containing both a `name` field and a `teamname` field
(with string values), normalization applies the escape-decoding only to
`name` and leaves `teamname` untouched; `teamname` is decoded only when
`name` is absent from the mapping. -/
theorem c10_name_precedence :
    (∀ (dec : String → String) (fs : List (String × JSON)) (s t : String)
        (fds : List (String × RVal)),
      lookupField "name" fs = some (.str s) →
      lookupField "teamname" fs = some (.str t) →
      convFields dec (some ("name", dec s)) fs = .ok fds →
      respOfJSON dec (.obj fs) = .ok (.objR fds)
      ∧ lookupRVal "name" fds = some (RVal.raw (.str (dec s)))
      ∧ lookupRVal "teamname" fds = some (RVal.raw (.str t)))
    ∧ (∀ (dec : String → String) (fs : List (String × JSON)) (t : String)
        (fds : List (String × RVal)),
      lookupField "name" fs = none →
      lookupField "teamname" fs = some (.str t) →
      convFields dec (some ("teamname", dec t)) fs = .ok fds →
      respOfJSON dec (.obj fs) = .ok (.objR fds)
      ∧ lookupRVal "teamname" fds = some (RVal.raw (.str (dec t)))) := by
  constructor
  · intro dec fs s t fds hname hteam hconv
    have hcf : checkFix dec fs = .ok (some ("name", dec s)) := by
      unfold checkFix
      rw [hname]
    refine ⟨?_, ?_, ?_⟩
    · simp only [respOfJSON, hcf, hconv, Except.map]
    · exact convFields_lookup_fix dec fs fds "name" (dec s) _ hconv hname
    · refine convFields_lookup_str dec fs fds (some ("name", dec s)) "teamname" t
        ?_ hconv hteam
      intro fv h2
      injection h2 with h3
      exact (by decide : ¬ ("name" = "teamname")) (congrArg Prod.fst h3)
  · intro dec fs t fds hname hteam hconv
    have hcf : checkFix dec fs = .ok (some ("teamname", dec t)) := by
      unfold checkFix
      rw [hname, hteam]
    refine ⟨?_, ?_⟩
    · simp only [respOfJSON, hcf, hconv, Except.map]
    · exact convFields_lookup_fix dec fs fds "teamname" (dec t) _ hconv hteam

/-- C10 (witness): a concrete object holding both fields, decoded with a
non-trivial transform: `name` is decoded, `teamname` is untouched. -/
theorem c10_name_precedence_witness :
    respOfJSON (fun s => s ++ "!") (.obj [("name", .str "a"), ("teamname", .str "b")])
      = .ok (.objR [("name", .raw (.str "a!")), ("teamname", .raw (.str "b"))])
    ∧ lookupRVal "name" [("name", RVal.raw (.str "a!")), ("teamname", RVal.raw (.str "b"))]
      = some (RVal.raw (.str "a!"))
    ∧ lookupRVal "teamname" [("name", RVal.raw (.str "a!")), ("teamname", RVal.raw (.str "b"))]
      = some (RVal.raw (.str "b")) :=
  c10_name_precedence.1 (fun s => s ++ "!") [("name", .str "a"), ("teamname", .str "b")]
    "a" "b" [("name", RVal.raw (.str "a!")), ("teamname", RVal.raw (.str "b"))]
    rfl rfl rfl

end Brawlhalla
